import Mathlib

/-!
Verification development for the delivery-calendar repository.

This file gives a shallow embedding of the delivery-status parsing and
calendar-serialization code (parsers.py, scrapers/amazon.py,
scrapers/bookswagon.py, scrapers/base.py, scrapers/ikea.py,
delivery_calendar.py) and proves or refutes the specification claims
about it.

Conventions:
- Python `datetime.date` values are modelled by `PDate` (year, month, day
  components) over the proleptic Gregorian calendar.  Python's year cap
  (1..9999) is not modelled; all inputs of interest stay far inside it.
- Python strings are modelled as `String` / `List Char`; `str.lower`,
  `str.strip`, `str.replace`, `in` (substring), `str.split` are modelled
  by the explicit list functions below.
- The two regular expressions appearing in the sources (the 12-hour
  clock-range pattern and the Bookswagon day-range pattern) are modelled
  by direct backtracking matchers that follow Python `re.search`
  semantics (leftmost match, greedy quantifiers with backtracking).
- `datetime.strptime` is modelled per format string actually used, with
  the exact token rules of CPython's `_strptime` regexes
  (`%d` = `3[01]|[12]\d|0[1-9]|[1-9]`, `%I`/`%m` = `1[0-2]|0[1-9]|[1-9]`,
  `%M` on a two-digit token = `[0-5]\d`, `%Y` = four digits, `%B`/`%b` =
  case-insensitive month names, whitespace in the format = `\s+`,
  full-match required).
-/

set_option maxRecDepth 4000

/-- Python `datetime.date`: a (year, month, day) component triple. -/
structure PDate where
  year : Nat
  month : Nat
  day : Nat
deriving DecidableEq, Repr

/-- Gregorian leap-year rule, as used by `datetime`. -/
def isLeapB (y : Nat) : Bool := (y % 4 == 0 && y % 100 != 0) || y % 400 == 0

/-- Days in a month of a given year. -/
def daysInMonth (y : Nat) (m : Nat) : Nat :=
  match m with
  | 1 => 31
  | 2 => if isLeapB y then 29 else 28
  | 3 => 31
  | 4 => 30
  | 5 => 31
  | 6 => 30
  | 7 => 31
  | 8 => 31
  | 9 => 30
  | 10 => 31
  | 11 => 30
  | 12 => 31
  | _ => 0

/-- Days before the start of month `m` in a non-leap year. -/
def daysBeforeMonthBase (m : Nat) : Nat :=
  match m with
  | 1 => 0
  | 2 => 31
  | 3 => 59
  | 4 => 90
  | 5 => 120
  | 6 => 151
  | 7 => 181
  | 8 => 212
  | 9 => 243
  | 10 => 273
  | 11 => 304
  | 12 => 334
  | _ => 0

/-- Days before the start of month `m` in year `y`. -/
def daysBeforeMonth (y m : Nat) : Nat :=
  daysBeforeMonthBase m + (if 3 ≤ m ∧ isLeapB y then 1 else 0)

/-- Days in all years strictly before year `y` (proleptic Gregorian). -/
def yearOffset (y : Nat) : Nat :=
  365 * (y - 1) + (y - 1) / 4 + (y - 1) / 400 - (y - 1) / 100

/-- Rata-die ordinal of a date, as in `datetime.date.toordinal`
(January 1 of year 1 is ordinal 1). -/
def toOrd (d : PDate) : Nat := yearOffset d.year + daysBeforeMonth d.year d.month + d.day

/-- Python `date.weekday()`: Monday = 0 … Sunday = 6. -/
def pyWeekday (d : PDate) : Nat := (toOrd d + 6) % 7

/-- `date + timedelta(days=1)` on components. -/
def nextDay (d : PDate) : PDate :=
  if d.day < daysInMonth d.year d.month then ⟨d.year, d.month, d.day + 1⟩
  else if d.month < 12 then ⟨d.year, d.month + 1, 1⟩
  else ⟨d.year + 1, 1, 1⟩

/-- `date + timedelta(days=n)`. -/
def addDays (d : PDate) : Nat → PDate
  | 0 => d
  | n + 1 => nextDay (addDays d n)

/-- The component triple denotes a real calendar date. -/
def validDateB (d : PDate) : Bool :=
  1 ≤ d.year && 1 ≤ d.month && d.month ≤ 12 && 1 ≤ d.day && d.day ≤ daysInMonth d.year d.month

example : pyWeekday ⟨1, 1, 1⟩ = 0 := by decide
example : pyWeekday ⟨2025, 10, 12⟩ = 6 := by decide
example : toOrd ⟨2024, 3, 1⟩ = toOrd ⟨2024, 2, 29⟩ + 1 := by decide

/-- A Python date-or-datetime value: a calendar date, optionally carrying a
time of day (minutes since midnight). -/
inductive DxD where
  | d (day : PDate)
  | dt (day : PDate) (minutes : Nat)
deriving DecidableEq, Repr

/-- The `(start, end)` tuple returned by `parse_delivery_date`. -/
abbrev PResult := Option DxD × Option DxD

/-- Strict `<` on datetimes, as Python compares `datetime` values
(date first, then time of day). -/
def dtBefore (a b : PDate × Nat) : Bool :=
  toOrd a.1 * 1440 + a.2 < toOrd b.1 * 1440 + b.2

/-! ### Python string primitives on `List Char` -/

/-- `str.lower` (ASCII case folding; the inputs of interest are ASCII
apart from dash punctuation, which `lower` leaves unchanged). -/
def lowerL (s : List Char) : List Char := s.map Char.toLower

/-- Characters treated as whitespace by `str.strip` and `\s`. -/
def pySpace (c : Char) : Bool :=
  c == ' ' || c == '\t' || c == '\n' || c == '\r' || c == Char.ofNat 11 || c == Char.ofNat 12

/-- Does `s` start with `pat`? -/
def startsWithL : List Char → List Char → Bool
  | [], _ => true
  | _ :: _, [] => false
  | p :: ps, c :: cs => p == c && startsWithL ps cs

/-- Python `pat in s` (substring containment). -/
def containsSeq (pat : List Char) : List Char → Bool
  | [] => pat.isEmpty
  | c :: rest => startsWithL pat (c :: rest) || containsSeq pat rest

/-- Python `ch in s` for a single character. -/
def hasChar (ch : Char) (s : List Char) : Bool := s.any (· == ch)

/-- Python `str.strip()`. -/
def stripL (s : List Char) : List Char :=
  ((s.dropWhile pySpace).reverse.dropWhile pySpace).reverse

/-- Worker for `replaceAll`; the fuel is an upper bound on the number of
characters still to scan (each step consumes at least one character when
the pattern is nonempty, as it always is at the call sites). -/
def replaceAllAux (pat rep : List Char) : Nat → List Char → List Char
  | _, [] => []
  | 0, s => s
  | fuel + 1, c :: rest =>
    if startsWithL pat (c :: rest) && !pat.isEmpty then
      rep ++ replaceAllAux pat rep fuel (rest.drop (pat.length - 1))
    else
      c :: replaceAllAux pat rep fuel rest

/-- Python `s.replace(pat, rep)`: replace every non-overlapping
occurrence, scanning left to right. -/
def replaceAll (s pat rep : List Char) : List Char := replaceAllAux pat rep s.length s

/-- Python `s.split(sep)` for a single-character separator. -/
def splitOnChar (sep : Char) : List Char → List (List Char)
  | [] => [[]]
  | c :: rest =>
    match splitOnChar sep rest with
    | [] => [[c]]
    | g :: gs => if c == sep then [] :: g :: gs else (c :: g) :: gs

example : splitOnChar '-' "16 july - 19 july".data =
    ["16 july ".data, " 19 july".data] := by decide
example : replaceAll "arriving 16 july".data "arriving ".data [] = "16 july".data := by decide
example : containsSeq "today".data "arriving today 10am".data = true := by decide
example : containsSeq "today".data "16 july - 19 july".data = false := by decide

/-! ### strptime models

Only the format strings actually used by the sources are modelled:
`%d %B [%Y]`, `%d %b [%Y]`, `%d-%m-%Y`, `%d/%m/%Y`, `%I[:%M]%p`.
A format application must consume the whole input string
(otherwise CPython raises "unconverted data remains" → `ValueError`,
modelled as `none`). -/

def isDigitB (c : Char) : Bool := c.isDigit

def digitVal (c : Char) : Nat := c.toNat - '0'.toNat

def digitsVal (s : List Char) : Nat := s.foldl (fun acc c => acc * 10 + digitVal c) 0

/-- `%d` applied to a maximal digit run (regex `3[01]|[12]\d|0[1-9]|[1-9]`;
a shorter token than the full run would leave a digit where the format
expects a non-digit, so only the full run can match). -/
def dayOfRun (run : List Char) : Option Nat :=
  match run with
  | [a] => if a == '0' then none else some (digitVal a)
  | [a, b] =>
    if (a == '3' && (b == '0' || b == '1')) || a == '1' || a == '2' ||
        (a == '0' && b != '0') then
      some (digitVal a * 10 + digitVal b)
    else none
  | _ => none

/-- `%I` and `%m` (regex `1[0-2]|0[1-9]|[1-9]`) applied to a maximal digit run. -/
def tok12OfRun (run : List Char) : Option Nat :=
  match run with
  | [a] => if a == '0' then none else some (digitVal a)
  | [a, b] =>
    if (a == '1' && (b == '0' || b == '1' || b == '2')) || (a == '0' && b != '0') then
      some (digitVal a * 10 + digitVal b)
    else none
  | _ => none

/-- Whitespace in a format string becomes `\s+`: require at least one
whitespace character and consume greedily. -/
def spaces1 (s : List Char) : Option (List Char) :=
  match s with
  | c :: rest => if pySpace c then some (rest.dropWhile pySpace) else none
  | [] => none

def monthFullNames : List (List Char) :=
  ["january".data, "february".data, "march".data, "april".data, "may".data, "june".data,
   "july".data, "august".data, "september".data, "october".data, "november".data,
   "december".data]

def monthAbbrNames : List (List Char) :=
  ["jan".data, "feb".data, "mar".data, "apr".data, "may".data, "jun".data,
   "jul".data, "aug".data, "sep".data, "oct".data, "nov".data, "dec".data]

/-- Match one of the month names at the head of `s` (no name is a proper
prefix of another inside either list, so the first hit is the only one),
returning its 1-based month number and the rest of the input. -/
def monthScan (names : List (List Char)) (i : Nat) (s : List Char) : Option (Nat × List Char) :=
  match names with
  | [] => none
  | n :: ns => if startsWithL n s then some (i, s.drop n.length) else monthScan ns (i + 1) s

/-- `strptime(s, "%d %B")` / `strptime(s, "%d %b")` without the implicit
1900-year validity check: returns `(day, month)` tokens. -/
def strpDayMonthTok (names : List (List Char)) (s : List Char) : Option (Nat × Nat) :=
  match dayOfRun (s.takeWhile isDigitB) with
  | none => none
  | some d =>
    match spaces1 (s.dropWhile isDigitB) with
    | none => none
    | some r2 =>
      match monthScan names 1 r2 with
      | none => none
      | some (m, r3) => if r3.isEmpty then some (d, m) else none

/-- `strptime(s, "%d %B")` / `%d %b`: the parsed `(day, month)` pair, with
the day validated against the default year 1900 (this is why
"29 February" never parses in a year-less format: 1900 is not leap). -/
def strpNoYear (names : List (List Char)) (s : List Char) : Option (Nat × Nat) :=
  match strpDayMonthTok names s with
  | some (d, m) => if d ≤ daysInMonth 1900 m then some (d, m) else none
  | none => none

/-- Take exactly four digit characters (`%Y`). -/
def year4 (s : List Char) : Option (Nat × List Char) :=
  match s with
  | a :: b :: c :: d :: rest =>
    if isDigitB a && isDigitB b && isDigitB c && isDigitB d then
      some (digitsVal [a, b, c, d], rest)
    else none
  | _ => none

/-- `strptime(s, "%d %B %Y")` / `%d %b %Y` as a full date (day validated
against the parsed year; year 0 is rejected as `datetime` would). -/
def strpWithYear (names : List (List Char)) (s : List Char) : Option PDate :=
  match dayOfRun (s.takeWhile isDigitB) with
  | none => none
  | some d =>
    match spaces1 (s.dropWhile isDigitB) with
    | none => none
    | some r2 =>
      match monthScan names 1 r2 with
      | none => none
      | some (m, r3) =>
        match spaces1 r3 with
        | none => none
        | some r4 =>
          match year4 r4 with
          | none => none
          | some (y, r5) =>
            if r5.isEmpty && 1 ≤ y && d ≤ daysInMonth y m then some ⟨y, m, d⟩ else none

/-- `date(1900, m, d).replace(year=y)`: re-validate the day against the
new year (`ValueError` → `none`). -/
def replaceYear (y : Nat) (dm : Nat × Nat) : Option PDate :=
  if dm.1 ≤ daysInMonth y dm.2 then some ⟨y, dm.2, dm.1⟩ else none

/-- `strptime(s, "%d-%m-%Y")` / `"%d/%m/%Y"` (Bookswagon numeric formats). -/
def strpNumeric (sep : Char) (s : List Char) : Option PDate :=
  match dayOfRun (s.takeWhile isDigitB) with
  | none => none
  | some d =>
    match s.dropWhile isDigitB with
    | c :: r2 =>
      if c == sep then
        match tok12OfRun (r2.takeWhile isDigitB) with
        | none => none
        | some m =>
          match r2.dropWhile isDigitB with
          | c2 :: r3 =>
            if c2 == sep then
              match year4 r3 with
              | none => none
              | some (y, r4) =>
                if r4.isEmpty && 1 ≤ y && d ≤ daysInMonth y m then some ⟨y, m, d⟩ else none
            else none
          | [] => none
      else none
    | [] => none

example : strpNoYear monthFullNames "16 july".data = some (16, 7) := by decide
example : strpNoYear monthFullNames "29 february".data = none := by decide
example : strpNoYear monthAbbrNames "5 dec".data = some (5, 12) := by decide
example : strpWithYear monthFullNames "14 july 2025".data = some ⟨2025, 7, 14⟩ := by decide
example : strpWithYear monthFullNames "29 february 2024".data = some ⟨2024, 2, 29⟩ := by decide
example : strpWithYear monthFullNames "29 february 2023".data = none := by decide
example : strpWithYear monthFullNames "16 july".data = none := by decide
example : strpNumeric '/' "15/12/2024".data = some ⟨2024, 12, 15⟩ := by decide

/-! ### The 12-hour clock-range regex

`(\d{1,2}(?::\d{2})?)\s*([ap]m)\s*[SEP]\s*(\d{1,2}(?::\d{2})?)\s*([ap]m)`

where `[SEP]` is `[-–]` in parsers.py / amazon_orders.py, but in
scrapers/amazon.py the en-dash in the character class is mojibake: its
UTF-8 bytes were decoded a second time, leaving the class
`['-', U+00E2, U+20AC, U+201C]`, which does not match a real en-dash. -/

/-- Separator class of parsers.py line 15: hyphen or en-dash (U+2013). -/
def parserSeps : List Char := ['-', Char.ofNat 8211]

/-- Separator class of scrapers/amazon.py line 45: hyphen plus the three
mojibake characters U+00E2, U+20AC, U+201C. -/
def amazonSeps : List Char := ['-', Char.ofNat 226, Char.ofNat 8364, Char.ofNat 8220]

/-- The four captured groups of a clock-range match. -/
structure TimeGroups where
  g1 : List Char
  ap1 : Char
  g3 : List Char
  ap2 : Char
deriving DecidableEq, Repr

/-- Candidates for `\d{1,2}` in greedy order (two digits first, then one),
paired with the remaining input. -/
def numCands (s : List Char) : List (List Char × List Char) :=
  match s with
  | a :: b :: rest =>
    if isDigitB a && isDigitB b then [([a, b], rest), ([a], b :: rest)]
    else if isDigitB a then [([a], b :: rest)] else []
  | [a] => if isDigitB a then [([a], [])] else []
  | [] => []

/-- Candidates for the optional `(?::\d{2})?` suffix in greedy order
(with the minutes first, then without), appended to the hour token. -/
def minCands (tok : List Char) (s : List Char) : List (List Char × List Char) :=
  match s with
  | ':' :: x :: y :: rest =>
    if isDigitB x && isDigitB y then [(tok ++ [':', x, y], rest), (tok, s)] else [(tok, s)]
  | _ => [(tok, s)]

/-- `[ap]m` at the head of the input. -/
def apTok (s : List Char) : Option (Char × List Char) :=
  match s with
  | c :: 'm' :: rest => if c == 'a' || c == 'p' then some (c, rest) else none
  | _ => none

/-- First candidate on which the continuation succeeds (regex
backtracking order). -/
def firstSome {α β : Type} (l : List α) (f : α → Option β) : Option β :=
  match l with
  | [] => none
  | a :: rest =>
    match f a with
    | some b => some b
    | none => firstSome rest f

/-- Try to match the clock-range pattern anchored at the head of `s`;
on success return the captured groups and the input after the match.
(`\s*` is consumed greedily: the token after it can never begin with
whitespace, so no backtracking is needed there.) -/
def matchTimeAt (seps : List Char) (s : List Char) : Option (TimeGroups × List Char) :=
  firstSome (numCands s) fun (t1, r1) =>
    firstSome (minCands t1 r1) fun (g1, r2) =>
      match apTok (r2.dropWhile pySpace) with
      | none => none
      | some (a1, r3) =>
        match r3.dropWhile pySpace with
        | c :: r5 =>
          if seps.contains c then
            firstSome (numCands (r5.dropWhile pySpace)) fun (t3, r7) =>
              firstSome (minCands t3 r7) fun (g3, r8) =>
                match apTok (r8.dropWhile pySpace) with
                | some (a2, r9) => some (⟨g1, a1, g3, a2⟩, r9)
                | none => none
          else none
        | [] => none

/-- `re.search` for the clock-range pattern: leftmost match, returning
the text before the match, the groups, and the text after. -/
def searchTime (seps : List Char) : List Char → Option (List Char × TimeGroups × List Char)
  | [] => none
  | c :: rest =>
    match matchTimeAt seps (c :: rest) with
    | some (g, post) => some ([], g, post)
    | none =>
      match searchTime seps rest with
      | some (pre, g, post) => some (c :: pre, g, post)
      | none => none

/-- `re.sub(time_pattern, '', s)`: remove every non-overlapping match,
continuing after each match.  The fuel is an upper bound on the input
length (every match consumes at least one character). -/
def subTimeAll (seps : List Char) : Nat → List Char → List Char
  | 0, s => s
  | fuel + 1, s =>
    match searchTime seps s with
    | some (pre, _, post) => pre ++ subTimeAll seps fuel post
    | none => s

/-- `strptime` on one captured time (`group1 ++ group2`), with format
`%I:%M%p` when the token contains a colon and `%I%p` otherwise; the
result is minutes since midnight. -/
def clockOfGroup (g1 : List Char) (ap : Char) : Option Nat :=
  let conv : Nat → Nat := fun h =>
    if ap == 'p' then (if h == 12 then 12 else h + 12) * 60
    else (if h == 12 then 0 else h) * 60
  if hasChar ':' g1 then
    match splitOnChar ':' g1 with
    | [hh, mm] =>
      match tok12OfRun hh with
      | none => none
      | some h =>
        match mm with
        | [x, y] =>
          if '0' ≤ x && x ≤ '5' && isDigitB x && isDigitB y then
            some (conv h + digitVal x * 10 + digitVal y)
          else none
        | _ => none
    | _ => none
  else
    match tok12OfRun g1 with
    | none => none
    | some h => some (conv h)

/-- Lines 21–40 of parsers.py: parse both captured times; if either
fails, both are discarded. -/
def clockOfMatch (g : TimeGroups) : Option (Nat × Nat) :=
  match clockOfGroup g.g1 g.ap1, clockOfGroup g.g3 g.ap2 with
  | some a, some b => some (a, b)
  | _, _ => none

example : (searchTime parserSeps "arriving today 10am - 2pm".data).map
    (fun r => (r.1, r.2.1.g1, r.2.1.ap1, r.2.1.g3, r.2.1.ap2)) =
    some ("arriving today ".data, "10".data, 'a', "2".data, 'p') := by decide
example : (searchTime parserSeps "arriving today 10:30am-2:15pm".data).isSome = true := by
  decide
example : searchTime amazonSeps "today 10am – 2pm".data = none := by decide
example : (searchTime parserSeps "today 10am – 2pm".data).isSome = true := by decide
example : clockOfGroup "10:30".data 'a' = some 630 := by decide
example : clockOfGroup "12".data 'a' = some 0 := by decide
example : clockOfGroup "12".data 'p' = some 720 := by decide
example : clockOfGroup "13".data 'p' = none := by decide
example : stripL (subTimeAll amazonSeps 30 "25 march 8am - 12pm".data) = "25 march".data := by
  decide

/-! ### parse_delivery_date (parsers.py and scrapers/amazon.py variants) -/

def weekdayNames : List (List Char) :=
  ["monday".data, "tuesday".data, "wednesday".data, "thursday".data, "friday".data,
   "saturday".data, "sunday".data]

/-- The `for i, day_name in enumerate(weekdays)` loop body: first index
`≥ k` whose name occurs as a substring. -/
def weekScan (names : List (List Char)) (k : Nat) (ls : List Char) : Option Nat :=
  match names with
  | [] => none
  | n :: ns => if containsSeq n ls then some k else weekScan ns (k + 1) ls

/-- Index of the first weekday name (in list order, Monday = 0) occurring
as a substring. -/
def firstWeekday (ls : List Char) : Option Nat := weekScan weekdayNames 0 ls

/-- Lines 64–65 of parsers.py: `days_ahead = (i - today.weekday() + 7) % 7`,
bumped to 7 when 0. -/
def daysAheadFor (i : Nat) (today : PDate) : Nat :=
  let d0 := (i + 7 - pyWeekday today) % 7
  if d0 = 0 then 7 else d0

/-- The `if start_time and end_time: return (combine, combine)` /
`return (d, None)` pattern shared by the today / tomorrow / weekday /
specific-date branches. -/
def combineOn (day : PDate) (times : Option (Nat × Nat)) : PResult :=
  match times with
  | some (st, et) => (some (.dt day st), some (.dt day et))
  | none => (some (.d day), none)

/-- Lines 81–85 of parsers.py: parse a year-less `<day> <month>` fragment
(`%d %B`, falling back to `%d %b` on `ValueError`) and re-anchor it to
year `y` via `replace(year=y)`. -/
def parseStartNoYear (p : List Char) (y : Nat) : Option PDate :=
  match (strpNoYear monthFullNames p).bind (replaceYear y) with
  | some d => some d
  | none => (strpNoYear monthAbbrNames p).bind (replaceYear y)

/-- Lines 87–97 of parsers.py: the end fragment of a range, trying
`%d %B %Y`, `%d %b %Y`, then the year-less forms re-anchored to the start
date's year. -/
def parseEndDate (p : List Char) (startYear : Nat) : Option PDate :=
  match strpWithYear monthFullNames p with
  | some d => some d
  | none =>
    match strpWithYear monthAbbrNames p with
    | some d => some d
    | none =>
      match (strpNoYear monthFullNames p).bind (replaceYear startYear) with
      | some d => some d
      | none => (strpNoYear monthAbbrNames p).bind (replaceYear startYear)

/-- Lines 73–103 of parsers.py (also lines 109–139 of scrapers/amazon.py):
the explicit date-range branch.  `except (ValueError, IndexError)`
becomes the `none`/short-list fallthroughs to `(None, None)`. -/
def rangeBranch (str0 : List Char) (today : PDate) : PResult :=
  let cleanS := stripL (replaceAll str0 "arriving ".data [])
  match (splitOnChar '-' cleanS).map stripL with
  | p0 :: p1 :: _ =>
    (match parseStartNoYear p0 today.year with
     | none => (none, none)
     | some sd =>
       match parseEndDate p1 sd.year with
       | none => (none, none)
       | some ed => (some (.d sd), some (.d (nextDay ed))))
  | _ => (none, none)

/-- One `strptime` attempt of the specific-date loop with an explicit
year (`%d %B %Y` / `%d %b %Y`): the literal `if dt.year == 1900` check of
line 110 re-anchors a parsed year 1900 to the reference year. -/
def tryFmtY (names : List (List Char)) (cs : List Char) (today : PDate) : Option PDate :=
  match strpWithYear names cs with
  | some d => if d.year = 1900 then replaceYear today.year (d.day, d.month) else some d
  | none => none

/-- One year-less `strptime` attempt of the specific-date loop
(`%d %B` / `%d %b`): the parse yields year 1900, which line 111 replaces
with the reference year. -/
def tryFmtNoY (names : List (List Char)) (cs : List Char) (today : PDate) : Option PDate :=
  match strpNoYear names cs with
  | some dm => replaceYear today.year dm
  | none => none

/-- Lines 105–121 of parsers.py (also 141–157 of scrapers/amazon.py):
the specific-date loop over `('%d %B %Y', '%d %b %Y', '%d %B', '%d %b')`
after stripping a leading "delivered " / "arriving ". -/
def specificBranch (str0 : List Char) (today : PDate) (times : Option (Nat × Nat)) : PResult :=
  let cs := stripL (replaceAll (replaceAll str0 "delivered ".data []) "arriving ".data [])
  match tryFmtY monthFullNames cs today with
  | some d => combineOn d times
  | none =>
    match tryFmtY monthAbbrNames cs today with
    | some d => combineOn d times
    | none =>
      match tryFmtNoY monthFullNames cs today with
      | some d => combineOn d times
      | none =>
        match tryFmtNoY monthAbbrNames cs today with
        | some d => combineOn d times
        | none => (none, none)

/-- The branch chain shared by both parser variants, applied after time
extraction.  `str0` is the string the keyword tests and later branches
read (the lowered input in parsers.py; the time-stripped `clean_str` in
scrapers/amazon.py), `hasTm` records whether the clock-range regex
matched (the truthiness of `time_match`, which guards the range branch
even when the captured times failed to parse), and `times` the
successfully parsed `(start_time, end_time)`. -/
def dateBranches (str0 : List Char) (today : PDate) (hasTm : Bool)
    (times : Option (Nat × Nat)) : PResult :=
  if containsSeq "today".data str0 then combineOn today times
  else if containsSeq "tomorrow".data str0 then combineOn (nextDay today) times
  else
    match (if containsSeq "arriving".data str0 then firstWeekday str0 else none) with
    | some i => combineOn (addDays today (daysAheadFor i today)) times
    | none =>
      if hasChar '-' str0 && !hasTm then rangeBranch str0 today
      else specificBranch str0 today times

/-- parse_delivery_date of parsers.py (the variant also duplicated in
amazon_orders.py): no "now expected by" branch, and the matched time
range is not stripped before the date branches run. -/
def parsersParse (s : String) (today : PDate) : PResult :=
  let ls := lowerL s.data
  let tmatch := searchTime parserSeps ls
  let times :=
    match tmatch with
    | some (_, g, _) => clockOfMatch g
    | none => none
  dateBranches ls today tmatch.isSome times

/-- Lines 30–42 of scrapers/amazon.py: the "now expected by" branch.
Returns `none` when neither format parses, in which case control falls
through to the rest of the function. -/
def expectedByDate (ls : List Char) (today : PDate) : Option PDate :=
  let dp := stripL (replaceAll ls "now expected by".data [])
  match (strpNoYear monthFullNames dp).bind (replaceYear today.year) with
  | some d => some d
  | none => (strpNoYear monthAbbrNames dp).bind (replaceYear today.year)

/-- parse_delivery_date of scrapers/amazon.py: adds the "now expected by"
branch, uses the mojibake separator class, and strips the matched time
range from the string (`clean_str`) before the date branches run. -/
def amazonParse (s : String) (today : PDate) : PResult :=
  let ls := lowerL s.data
  if containsSeq "now expected by".data ls then
    match expectedByDate ls today with
    | some d => (some (.d d), none)
    | none => amazonAfterExpected ls today
  else amazonAfterExpected ls today
where
  amazonAfterExpected (ls : List Char) (today : PDate) : PResult :=
    let tmatch := searchTime amazonSeps ls
    let times :=
      match tmatch with
      | some (_, g, _) => clockOfMatch g
      | none => none
    let clean := if tmatch.isSome then stripL (subTimeAll amazonSeps ls.length ls) else ls
    dateBranches clean today tmatch.isSome times

example : parsersParse "16 July - 19 July" ⟨2025, 3, 10⟩ =
    (some (.d ⟨2025, 7, 16⟩), some (.d ⟨2025, 7, 20⟩)) := by decide
example : parsersParse "5 Dec - 8 Dec" ⟨2025, 3, 10⟩ =
    (some (.d ⟨2025, 12, 5⟩), some (.d ⟨2025, 12, 9⟩)) := by decide
example : parsersParse "Arriving today" ⟨2025, 3, 10⟩ =
    (some (.d ⟨2025, 3, 10⟩), none) := by decide
example : parsersParse "Arriving today 10am - 2pm" ⟨2025, 3, 10⟩ =
    (some (.dt ⟨2025, 3, 10⟩ 600), some (.dt ⟨2025, 3, 10⟩ 840)) := by decide
example : parsersParse "Arriving tomorrow 9am - 1pm" ⟨2025, 3, 10⟩ =
    (some (.dt ⟨2025, 3, 11⟩ 540), some (.dt ⟨2025, 3, 11⟩ 780)) := by decide
example : parsersParse "14 July 2025" ⟨2025, 3, 10⟩ = (some (.d ⟨2025, 7, 14⟩), none) := by
  decide
example : parsersParse "Delivered 9 July" ⟨2025, 3, 10⟩ =
    (some (.d ⟨2025, 7, 9⟩), none) := by decide
example : parsersParse "Invalid date format" ⟨2025, 3, 10⟩ = (none, none) := by decide
example : parsersParse "25 March 8am - 12pm" ⟨2025, 3, 10⟩ = (none, none) := by decide
example : amazonParse "25 March 8am - 12pm" ⟨2025, 3, 10⟩ =
    (some (.dt ⟨2025, 3, 25⟩ 480), some (.dt ⟨2025, 3, 25⟩ 720)) := by decide
example : amazonParse "Now expected by 19 July" ⟨2025, 3, 10⟩ =
    (some (.d ⟨2025, 7, 19⟩), none) := by decide
/- 2025-03-10 is a Monday; "Arriving Monday" resolves to +7, "Arriving Sunday" to +6. -/
example : parsersParse "Arriving Monday" ⟨2025, 3, 10⟩ =
    (some (.d ⟨2025, 3, 17⟩), none) := by decide
example : parsersParse "Arriving Sunday" ⟨2025, 3, 10⟩ =
    (some (.d ⟨2025, 3, 16⟩), none) := by decide

/-! ### parse_bookswagon_date (scrapers/bookswagon.py)

scrapers/bookswagon.py imports only `datetime, date` from the datetime
module (line 11), yet lines 44 and 49 evaluate `timedelta(days=1)`.
When the day-range path succeeds, that evaluation raises `NameError`,
which the surrounding `except ValueError` clauses do not catch, so the
exception escapes `parse_bookswagon_date`.  The model therefore returns
`Except`, with the `NameError` as the error case. -/

/-- The uncaught exception escaping scrapers/bookswagon.py. -/
inductive PyExn where
  | nameErrTimedelta
deriving DecidableEq, Repr

/-- Python `\w` on the (lowered, ASCII) inputs. -/
def isWordB (c : Char) : Bool := c.isAlphanum || c == '_'

/-- Match `(\d{1,2})-(\d{1,2})\s+(\w+)\s+(\d{4})` anchored at the head of
`s`, returning `(int(g1), int(g2), g3, int(g4))`.  A `\w+` candidate
shorter than the maximal word run is followed by a word character, which
can satisfy neither `\s+` nor the end of the run, so only the full run
can match; likewise a `\d{1,2}` token shorter than its digit run is
followed by a digit where `-` or `\s+` is required. -/
def matchRangeAt (s : List Char) : Option (Nat × Nat × List Char × Nat) :=
  firstSome (numCands s) fun (t1, r1) =>
    match r1 with
    | '-' :: r2 =>
      firstSome (numCands r2) fun (t2, r3) =>
        match spaces1 r3 with
        | none => none
        | some r4 =>
          let w := r4.takeWhile isWordB
          if w.isEmpty then none
          else
            match spaces1 (r4.dropWhile isWordB) with
            | none => none
            | some r5 =>
              match year4 r5 with
              | none => none
              | some (y, _) => some (digitsVal t1, digitsVal t2, w, y)
    | _ => none

/-- `re.search` for the Bookswagon day-range pattern. -/
def searchRange : List Char → Option (Nat × Nat × List Char × Nat)
  | [] => none
  | c :: rest =>
    match matchRangeAt (c :: rest) with
    | some r => some r
    | none => searchRange rest

/-- Lines 41–42 / 47–48 of scrapers/bookswagon.py: both
`strptime(f"{day} {month_name} {year}", '%d %B %Y')` calls on the
reconstructed strings (`f"{n}"` renders the parsed ints without leading
zeros). -/
def rangePairDate (names : List (List Char)) (d1 d2 : Nat) (mon : List Char) (yr : Nat) :
    Option (PDate × PDate) :=
  let build : Nat → List Char := fun d =>
    (toString d).data ++ ' ' :: mon ++ ' ' :: (toString yr).data
  match strpWithYear names (build d1), strpWithYear names (build d2) with
  | some a, some b => some (a, b)
  | _, _ => none

/-- Lines 53–66 of scrapers/bookswagon.py: the single-date pattern loop. -/
def bookswagonSingle (cs : List Char) : Option PDate :=
  match strpWithYear monthFullNames cs with
  | some d => some d
  | none =>
    match strpWithYear monthAbbrNames cs with
    | some d => some d
    | none =>
      match strpNumeric '-' cs with
      | some d => some d
      | none => strpNumeric '/' cs

/-- parse_bookswagon_date of scrapers/bookswagon.py.  A successful
day-range parse reaches `end_date + timedelta(days=1)` and raises
`NameError` (timedelta is not in scope in that module); everything else
returns normally, falling back to parsers.py's parse_delivery_date. -/
def bookswagonParse (s : String) (today : PDate) : Except PyExn PResult :=
  if s.data.isEmpty then .ok (none, none)
  else
    let cs0 := lowerL (stripL s.data)
    let cs :=
      if containsSeq "expected delivery".data cs0 then
        stripL (replaceAll cs0 "expected delivery:".data [])
      else cs0
    match searchRange cs with
    | some (d1, d2, mon, yr) =>
      (match rangePairDate monthFullNames d1 d2 mon yr with
       | some _ => .error .nameErrTimedelta
       | none =>
         match rangePairDate monthAbbrNames d1 d2 mon yr with
         | some _ => .error .nameErrTimedelta
         | none =>
           match bookswagonSingle cs with
           | some d => .ok (some (.d d), none)
           | none => .ok (parsersParse s today))
    | none =>
      match bookswagonSingle cs with
      | some d => .ok (some (.d d), none)
      | none => .ok (parsersParse s today)

example : bookswagonParse "15 July 2024" ⟨2025, 3, 10⟩ =
    .ok (some (.d ⟨2024, 7, 15⟩), none) := rfl
example : bookswagonParse "15-20 July 2024" ⟨2025, 3, 10⟩ = .error .nameErrTimedelta := rfl
example : bookswagonParse "Expected delivery: 15-20 July 2024" ⟨2025, 3, 10⟩ =
    .error .nameErrTimedelta := rfl
example : bookswagonParse "15/12/2024" ⟨2025, 3, 10⟩ =
    .ok (some (.d ⟨2024, 12, 15⟩), none) := rfl
example : bookswagonParse "garbage text" ⟨2025, 3, 10⟩ = .ok (none, none) := rfl

/-! ### The base-class calendar serializer (scrapers/base.py lines 153–192)

An order dictionary is modelled by a structure with one optional field
per key the code reads; an absent key is `none`.  `order.get(k)` truthiness
for the string-valued `delivery_date` key is "present and nonempty". -/

/-- An order dictionary, with the keys written by the scrapers and read
by `Scraper.generate_ics_file`. -/
structure PyOrder where
  order_id : Option String := none
  title : Option String := none
  start_date : Option DxD := none
  end_date : Option DxD := none
  order_link : Option String := none
  status : Option String := none
  delivery_date : Option String := none
deriving DecidableEq, Repr

/-- Truthiness of `order.get('delivery_date')` (a missing key gives
`None`; an empty string is also falsy). -/
def truthyStr : Option String → Bool
  | none => false
  | some s => !s.isEmpty

/-- Line 174: `f"{order.get('order_id', 'unknown')}@ordertracker.local"`. -/
def uidOf (o : PyOrder) : String := o.order_id.getD "unknown" ++ "@ordertracker.local"

/-- Line 177: `order['delivery_date'].replace('-', '')`. -/
def removeDashes (s : String) : String := ⟨s.data.filter (fun c => c ≠ '-')⟩

/-- Lines 179–187: the seven lines appended for one emitted event. -/
def eventBlock (o : PyOrder) (dd : String) (now : String) : List String :=
  ["BEGIN:VEVENT",
   "UID:" ++ uidOf o,
   "DTSTART;VALUE=DATE:" ++ removeDashes dd,
   "SUMMARY:" ++ o.title.getD "Order Delivery",
   "DESCRIPTION:Order ID: " ++ o.order_id.getD "N/A" ++ "\\nStatus: " ++ o.status.getD "N/A",
   "DTSTAMP:" ++ now,
   "END:VEVENT"]

/-- Lines 171–187: the per-order loop, guarded by the truthiness of
`order.get('delivery_date')`. -/
def eventLinesLoop (now : String) : List PyOrder → List String
  | [] => []
  | o :: rest =>
    match o.delivery_date with
    | some dd =>
      if !dd.isEmpty then eventBlock o dd now ++ eventLinesLoop now rest
      else eventLinesLoop now rest
    | none => eventLinesLoop now rest

/-- Lines 163–169: the fixed calendar header lines. -/
def icsHeaderLines : List String :=
  ["BEGIN:VCALENDAR", "VERSION:2.0", "PRODID:-//Order Tracker//Order Tracker//EN",
   "CALSCALE:GREGORIAN", "METHOD:PUBLISH"]

/-- The full line list of the document (header, events, footer).  `now`
stands for the `DTSTAMP` string `datetime.now().strftime(...)`, fixed as
a parameter. -/
def generateIcsLines (orders : List PyOrder) (now : String) : List String :=
  icsHeaderLines ++ eventLinesLoop now orders ++ ["END:VCALENDAR"]

/-- Line 192: `'\n'.join(ics_content)` — the byte content written out. -/
def generateIcsText (orders : List PyOrder) (now : String) : String :=
  String.intercalate "\n" (generateIcsLines orders now)

/-- Recognize a `UID:` line of the document and return its value. -/
def uidOfLine (l : String) : Option String :=
  if l.data.take 4 = "UID:".data then some ⟨l.data.drop 4⟩ else none

/-- The UID values of the document, read back off the emitted lines
(only the per-event `UID:` lines start with that prefix). -/
def emittedUids (orders : List PyOrder) (now : String) : List String :=
  (generateIcsLines orders now).filterMap uidOfLine

/-- Number of lines of the document equal to `l`. -/
def countLine (lines : List String) (l : String) : Nat := (lines.filter (· = l)).length

/-! ### Writing the output file (scrapers/base.py lines 191–192,
delivery_calendar.py lines 33–34)

`with open(output_file, 'w') as f: f.write(content)` — opening with mode
`'w'` truncates the existing file in place before any byte of the new
document is written; there is no temporary file and no atomic rename.
`failAfter = some k` injects an I/O fault after `k` characters of the
write have reached the file; `none` is a fault-free run. -/

/-- Result of one attempt to write the output file over `oldContent`. -/
structure FileWriteResult where
  raised : Bool
  fileContent : String
deriving DecidableEq, Repr

/-- `open(path, 'w')` + `f.write(doc)` with an optional injected fault. -/
def pyWriteTruncating (oldContent doc : String) (failAfter : Option Nat) : FileWriteResult :=
  let _ := oldContent   -- the old content is destroyed by the truncating open
  match failAfter with
  | none => ⟨false, doc⟩
  | some k => if k < doc.length then ⟨true, ⟨doc.data.take k⟩⟩ else ⟨false, doc⟩

/-- `Scraper.generate_ics_file`: build the document in memory, then write
it over the previous output file. -/
def generateIcsFileRun (orders : List PyOrder) (now : String) (oldContent : String)
    (failAfter : Option Nat) : FileWriteResult :=
  pyWriteTruncating oldContent (generateIcsText orders now) failAfter

/-! ### AmazonScraper.scrape_orders status handling and MatchOutcome -/

/-- The spec's tagged parse outcome. -/
inductive MatchOutcome where
  | excluded
  | noMatch
  | matched (start : DxD) (stop : Option DxD)
deriving DecidableEq, Repr

/-- Lines 245–298 of scrapers/amazon.py, reduced to the per-status
outcome: the completed-delivery check (`"delivered" in
delivery_date_str.lower(): continue`) runs before parse_delivery_date is
ever called; a falsy (`None`) start date is the no-match case. -/
def amazonStatusOutcome (s : String) (today : PDate) : MatchOutcome :=
  if containsSeq "delivered".data (lowerL s.data) then .excluded
  else
    match amazonParse s today with
    | (some st, e) => .matched st e
    | (none, _) => .noMatch

example : amazonStatusOutcome "Delivered 9 July" ⟨2025, 3, 10⟩ = .excluded := by decide
example : amazonStatusOutcome "Arriving today" ⟨2025, 3, 10⟩ =
    .matched (.d ⟨2025, 3, 10⟩) none := by decide

/-! ### IkeaScraper.scrape_orders order records (scrapers/ikea.py 203–210) -/

/-- The per-element data IkeaScraper.scrape_orders extracts before
building an order dictionary: optional extracted order id, optional
title, parsed delivery date (possibly `None`), optional raw delivery
info, and the element index `i`. -/
structure IkeaItem where
  oid : Option String := none
  name : Option String := none
  parsedDate : Option PDate := none
  info : Option String := none
  idx : Nat := 0
deriving DecidableEq, Repr

/-- Python `x or default` for an optional string (`None` and the empty
string are falsy). -/
def orStr (x : Option String) (dflt : String) : String :=
  if truthyStr x then x.getD "" else dflt

/-- Lines 204–209 of scrapers/ikea.py: the order dictionary appended for
one scraped element.  The parsed date goes under `start_date`; no
`delivery_date` key is ever set. -/
def ikeaOrderOf (it : IkeaItem) : PyOrder :=
  { order_id := some (orStr it.oid ("ikea-" ++ toString (it.idx + 1))),
    title := some (if truthyStr it.name then "🛋️ IKEA: " ++ it.name.getD ""
      else "🛋️ IKEA: Order " ++ orStr it.oid (toString (it.idx + 1))),
    start_date := it.parsedDate.map .d,
    status := some (orStr it.info "Unknown status"),
    delivery_date := none }

/-! ## Supporting lemmas -/

/-- Unfolding of `validDateB` into arithmetic facts. -/
theorem validDateB_iff (d : PDate) :
    validDateB d = true ↔
      1 ≤ d.year ∧ 1 ≤ d.month ∧ d.month ≤ 12 ∧ 1 ≤ d.day ∧
        d.day ≤ daysInMonth d.year d.month := by
  simp [validDateB, Bool.and_eq_true, decide_eq_true_eq, and_assoc]

/-- Months 1–12 are nonempty. -/
theorem daysInMonth_pos (y m : Nat) (h1 : 1 ≤ m) (hm : m ≤ 12) : 1 ≤ daysInMonth y m := by
  interval_cases m <;> cases h : isLeapB y <;> simp [daysInMonth, h]

/-- Month-table recurrence: the days before month `m+1` are the days
before month `m` plus the length of month `m`. -/
theorem daysBeforeMonth_succ (y m : Nat) (h1 : 1 ≤ m) (hm : m ≤ 11) :
    daysBeforeMonth y (m + 1) = daysBeforeMonth y m + daysInMonth y m := by
  interval_cases m <;>
    cases h : isLeapB y <;>
      simp [daysBeforeMonth, daysBeforeMonthBase, daysInMonth, h]

set_option maxHeartbeats 1600000 in
/-- Year recurrence for the rata-die year offset. -/
theorem yearOffset_succ (y : Nat) (hy : 1 ≤ y) :
    yearOffset (y + 1) = yearOffset y + 365 + (if isLeapB y then 1 else 0) := by
  have h : isLeapB y = true ↔ (y % 4 = 0 ∧ y % 100 ≠ 0) ∨ y % 400 = 0 := by
    simp [isLeapB]
  unfold yearOffset
  split
  · rename_i hl
    have h2 : (y % 4 = 0 ∧ y % 100 ≠ 0) ∨ y % 400 = 0 := h.mp hl
    omega
  · rename_i hl
    have h2 : ¬ ((y % 4 = 0 ∧ y % 100 ≠ 0) ∨ y % 400 = 0) := fun hp => hl (h.mpr hp)
    omega

/-- `nextDay` advances the ordinal by one and preserves validity. -/
theorem nextDay_spec (d : PDate) (hv : validDateB d = true) :
    toOrd (nextDay d) = toOrd d + 1 ∧ validDateB (nextDay d) = true := by
  obtain ⟨hy, hm1, hm2, hd1, hd2⟩ := (validDateB_iff d).mp hv
  unfold nextDay
  split
  · refine ⟨?_, ?_⟩
    · simp only [toOrd]
      omega
    · rw [validDateB_iff]
      dsimp only
      omega
  · rename_i hlt
    split
    · rename_i hmon
      have hdm : d.day = daysInMonth d.year d.month := by omega
      have hrec := daysBeforeMonth_succ d.year d.month hm1 (by omega)
      have hpos := daysInMonth_pos d.year (d.month + 1) (by omega) (by omega)
      refine ⟨?_, ?_⟩
      · simp only [toOrd]
        omega
      · rw [validDateB_iff]
        dsimp only
        omega
    · rename_i hmon
      have hm12 : d.month = 12 := by omega
      have hdim : daysInMonth d.year d.month = 31 := by rw [hm12]; exact rfl
      have hday : d.day = 31 := by omega
      have hrec := yearOffset_succ d.year hy
      have hdbm : daysBeforeMonth d.year 12 = 334 + (if isLeapB d.year then 1 else 0) := by
        simp [daysBeforeMonth, daysBeforeMonthBase]
      have hdbm1 : daysBeforeMonth (d.year + 1) 1 = 0 := by
        simp [daysBeforeMonth, daysBeforeMonthBase]
      refine ⟨?_, ?_⟩
      · simp only [toOrd, hdbm1, hm12, hdbm, hrec, hday]
        omega
      · rw [validDateB_iff]
        dsimp only
        refine ⟨by omega, by omega, by omega, by omega, ?_⟩
        simp [daysInMonth]

/-- `addDays` advances the ordinal by `n` and preserves validity. -/
theorem addDays_spec (d : PDate) (hv : validDateB d = true) (n : Nat) :
    toOrd (addDays d n) = toOrd d + n ∧ validDateB (addDays d n) = true := by
  induction n with
  | zero => exact ⟨rfl, hv⟩
  | succ k ih =>
    have h := nextDay_spec (addDays d k) ih.2
    exact ⟨by simp [addDays, h.1, ih.1]; omega, h.2⟩

/-- A hit of the weekday scan is an index into the name list. -/
theorem weekScan_lt (names : List (List Char)) (k : Nat) (ls : List Char) (i : Nat)
    (h : weekScan names k ls = some i) : k ≤ i ∧ i < k + names.length := by
  induction names generalizing k with
  | nil => simp [weekScan] at h
  | cons n ns ih =>
    unfold weekScan at h
    split at h
    · cases h
      simp
    · have := ih (k + 1) h
      simp only [List.length_cons]
      omega

/-- The well-formedness the data model demands of a returned interval:
time-of-day on both endpoints or on neither (an endpoint-less start never
carries a time), and a timed pair sits on one calendar date, so its
chronological order agrees with the clock order of the two times. -/
def intervalShapeOk : PResult → Bool
  | (some (.dt d1 t1), some (.dt d2 t2)) =>
    d1 == d2 && (dtBefore (d1, t1) (d2, t2) == decide (t1 < t2))
  | (some (.dt _ _), some (.d _)) => false
  | (some (.d _), some (.dt _ _)) => false
  | (some (.dt _ _), none) => false
  | _ => true

theorem shape_combineOn (d : PDate) (t : Option (Nat × Nat)) :
    intervalShapeOk (combineOn d t) = true := by
  cases t with
  | none => rfl
  | some p =>
    obtain ⟨st, et⟩ := p
    have h : dtBefore (d, st) (d, et) = decide (st < et) := by
      simp only [dtBefore, decide_eq_decide]
      omega
    simp [combineOn, intervalShapeOk, h]

theorem shape_rangeBranch (str0 : List Char) (today : PDate) :
    intervalShapeOk (rangeBranch str0 today) = true := by
  unfold rangeBranch
  dsimp only
  split
  · split
    · rfl
    · split
      · rfl
      · rfl
  · rfl

theorem shape_specificBranch (str0 : List Char) (today : PDate) (times : Option (Nat × Nat)) :
    intervalShapeOk (specificBranch str0 today times) = true := by
  unfold specificBranch
  dsimp only
  split
  · exact shape_combineOn _ _
  · split
    · exact shape_combineOn _ _
    · split
      · exact shape_combineOn _ _
      · split
        · exact shape_combineOn _ _
        · rfl

theorem shape_dateBranches (str0 : List Char) (today : PDate) (hasTm : Bool)
    (times : Option (Nat × Nat)) :
    intervalShapeOk (dateBranches str0 today hasTm times) = true := by
  unfold dateBranches
  split
  · exact shape_combineOn _ _
  · split
    · exact shape_combineOn _ _
    · split
      · exact shape_combineOn _ _
      · split
        · exact shape_rangeBranch _ _
        · exact shape_specificBranch _ _ _

/-- `startDateOf` projects the calendar date of the returned start point. -/
def startDateOf (r : PResult) : Option PDate :=
  match r.1 with
  | some (.d day) => some day
  | some (.dt day _) => some day
  | none => none

theorem startDateOf_combineOn (d : PDate) (t : Option (Nat × Nat)) :
    startDateOf (combineOn d t) = some d := by
  cases t with
  | none => rfl
  | some p => obtain ⟨st, et⟩ := p; rfl

/-- The only line of an event block that `uidOfLine` accepts is the
`UID:` line, and it returns the emitted UID. -/
theorem filterMap_uid_eventBlock (o : PyOrder) (dd now : String) :
    (eventBlock o dd now).filterMap uidOfLine = [uidOf o] := rfl

theorem filterMap_uid_header : icsHeaderLines.filterMap uidOfLine = [] := rfl

/-- An event block contributes exactly one `BEGIN:VEVENT` line. -/
theorem countBegin_eventBlock (o : PyOrder) (dd now : String) :
    countLine (eventBlock o dd now) "BEGIN:VEVENT" = 1 := rfl

/-- The UID list of a document is the UID of each emitted order, in
emission order. -/
theorem emittedUids_eq (orders : List PyOrder) (now : String) :
    emittedUids orders now =
      (orders.filter (fun o => truthyStr o.delivery_date)).map uidOf := by
  unfold emittedUids generateIcsLines
  rw [List.filterMap_append, List.filterMap_append, filterMap_uid_header]
  have hfoot : (["END:VCALENDAR"] : List String).filterMap uidOfLine = [] := rfl
  rw [hfoot]
  simp only [List.nil_append, List.append_nil]
  induction orders with
  | nil => rfl
  | cons o os ih =>
    unfold eventLinesLoop
    cases hdd : o.delivery_date with
    | none => simpa [List.filter_cons, truthyStr, hdd] using ih
    | some dd =>
      cases hni : dd.isEmpty with
      | true => simpa [List.filter_cons, truthyStr, hdd, hni] using ih
      | false =>
        simp [List.filter_cons, truthyStr, hdd, hni, List.filterMap_append,
          filterMap_uid_eventBlock, ih]

/-- An event block contributes exactly one `BEGIN:VEVENT` line (raw
filter form). -/
theorem filterBegin_eventBlock (o : PyOrder) (dd now : String) :
    (List.filter (fun x => decide (x = "BEGIN:VEVENT")) (eventBlock o dd now)).length = 1 :=
  rfl

/-- The number of emitted event records equals the number of orders with
a present, truthy `delivery_date`. -/
theorem countBegin_eq (orders : List PyOrder) (now : String) :
    countLine (generateIcsLines orders now) "BEGIN:VEVENT" =
      (orders.filter (fun o => truthyStr o.delivery_date)).length := by
  unfold generateIcsLines countLine
  rw [List.filter_append, List.filter_append]
  simp only [List.length_append]
  have hhead : (List.filter (fun x => decide (x = "BEGIN:VEVENT")) icsHeaderLines).length = 0 :=
    rfl
  have hfoot :
      (List.filter (fun x => decide (x = "BEGIN:VEVENT")) ["END:VCALENDAR"]).length = 0 := rfl
  rw [hhead, hfoot]
  simp only [Nat.zero_add, Nat.add_zero]
  induction orders with
  | nil => rfl
  | cons o os ih =>
    unfold eventLinesLoop
    cases hdd : o.delivery_date with
    | none => simpa [List.filter_cons, truthyStr, hdd] using ih
    | some dd =>
      cases hni : dd.isEmpty with
      | true => simpa [List.filter_cons, truthyStr, hdd, hni] using ih
      | false =>
        simp [List.filter_cons, truthyStr, hdd, hni, List.filter_append,
          filterBegin_eventBlock, ih, Nat.add_comm]

/-- Appending a fixed suffix to a string is injective. -/
theorem appendSuffixInjective (suf : String) :
    Function.Injective (fun s : String => s ++ suf) := by
  intro a b h
  have hd := congrArg String.data h
  simp only [String.data_append] at hd
  exact String.ext (List.append_cancel_right hd)

/-- Unfolding lemma exposing the pipeline structure of `parsersParse`. -/
theorem parsersParse_eq (s : String) (today : PDate) :
    parsersParse s today =
      dateBranches (lowerL s.data) today (searchTime parserSeps (lowerL s.data)).isSome
        (match searchTime parserSeps (lowerL s.data) with
         | some (_, g, _) => clockOfMatch g
         | none => none) := rfl

/-- A `replaceYear` hit carries the requested year. -/
theorem replaceYear_year (y : Nat) (dm : Nat × Nat) (d : PDate)
    (h : replaceYear y dm = some d) : d.year = y := by
  unfold replaceYear at h
  split at h
  · cases h; rfl
  · cases h

/-- A year-less start fragment is resolved with the supplied year. -/
theorem parseStartNoYear_year (p : List Char) (y : Nat) (d : PDate)
    (h : parseStartNoYear p y = some d) : d.year = y := by
  unfold parseStartNoYear at h
  split at h
  · rename_i v hv
    cases h
    obtain ⟨dm, _, hr⟩ := Option.bind_eq_some.mp hv
    exact replaceYear_year _ _ _ hr
  · obtain ⟨dm, _, hr⟩ := Option.bind_eq_some.mp h
    exact replaceYear_year _ _ _ hr

/-! ## Claims -/

/-- C1: a status string that signals a terminal "delivered" state (the
code's check: the substring "delivered" in the lowered text, as in
"Delivered 9 July") is excluded before `parse_delivery_date` ever runs,
so it never yields a delivery interval, whatever date the text carries. -/
theorem c1_delivered_excluded (s : String) (today : PDate)
    (h : containsSeq "delivered".data (lowerL s.data) = true) :
    amazonStatusOutcome s today = .excluded := by
  unfold amazonStatusOutcome
  simp [h]

/-- Witness for C1 at "Delivered 9 July". -/
theorem c1_delivered_excluded_witness :
    amazonStatusOutcome "Delivered 9 July" ⟨2025, 3, 10⟩ = .excluded :=
  c1_delivered_excluded "Delivered 9 July" ⟨2025, 3, 10⟩ (by decide)

/-- C2 (code bug): the Bookswagon date parser does not return `NoMatch`
on the range text "15-20 July 2024"; it raises an uncaught `NameError`
(`timedelta` is used at scrapers/bookswagon.py lines 44/49 but never
imported there, and only `ValueError` is caught), contradicting the
never-raises contract. -/
theorem c2_bookswagon_range_raises :
    bookswagonParse "15-20 July 2024" ⟨2025, 7, 1⟩ = .error .nameErrTimedelta := rfl

/-- C3 counterexample: a 12-hour range crossing midnight.  For
"Arriving today 10pm - 2am" both endpoints are combined with the same
reference date, so the returned end (02:00) is strictly before the
returned start (22:00) — the claimed end-after-start invariant fails. -/
theorem c3_midnight_counterexample :
    parsersParse "Arriving today 10pm - 2am" ⟨2025, 7, 1⟩ =
      (some (.dt ⟨2025, 7, 1⟩ 1320), some (.dt ⟨2025, 7, 1⟩ 120)) ∧
    dtBefore (⟨2025, 7, 1⟩, 120) (⟨2025, 7, 1⟩, 1320) = true :=
  ⟨by decide, by decide⟩

/-- C3 (amended): every result of either parse_delivery_date variant
carries a time of day on both endpoints or on neither, and a timed pair
always sits on one calendar date — hence its end is strictly after its
start exactly when the extracted end clock time is after the start clock
time, and a midnight-crossing range comes back with end before start. -/
theorem c3_interval_shape (s : String) (today : PDate) :
    intervalShapeOk (parsersParse s today) = true ∧
    intervalShapeOk (amazonParse s today) = true := by
  constructor
  · exact shape_dateBranches _ _ _ _
  · unfold amazonParse
    dsimp only
    split
    · split
      · rfl
      · exact shape_dateBranches _ _ _ _
    · exact shape_dateBranches _ _ _ _

/-- C4: the serialized calendar bytes are a function of the order
sequence and the generation timestamp alone — two runs over equal inputs
produce byte-identical output. -/
theorem c4_serialize_deterministic (orders1 orders2 : List PyOrder) (now1 now2 : String)
    (ho : orders1 = orders2) (hn : now1 = now2) :
    generateIcsText orders1 now1 = generateIcsText orders2 now2 := by
  rw [ho, hn]

/-- Sample order for the C4 witness. -/
def c4SampleOrder : PyOrder :=
  { order_id := some "171-001", title := some "Parcel", delivery_date := some "2025-07-16",
    status := some "Arriving 16 July" }

/-- Witness for C4 on a concrete one-order run. -/
theorem c4_serialize_deterministic_witness :
    generateIcsText [c4SampleOrder] "20250101T000000Z" =
      generateIcsText [c4SampleOrder] "20250101T000000Z" :=
  c4_serialize_deterministic [c4SampleOrder] [c4SampleOrder] "20250101T000000Z"
    "20250101T000000Z" rfl rfl

/-- C5 (code bug): the parsers.py / amazon_orders.py variant does not
strip the matched clock range before date extraction, so
"25 March 8am - 12pm" — which the repository's own test
`test_specific_date_with_time` expects to parse as a timed interval on
March 25 — falls through every date format and returns `(None, None)`;
the scrapers/amazon.py variant strips the range and returns the claimed
timed interval. -/
theorem c5_time_strip_divergence (today : PDate) :
    parsersParse "25 March 8am - 12pm" today = (none, none) ∧
    amazonParse "25 March 8am - 12pm" today =
      (some (.dt ⟨today.year, 3, 25⟩ 480), some (.dt ⟨today.year, 3, 25⟩ 720)) :=
  ⟨rfl, rfl⟩

/-- C6: on the explicit date-range path, the first fragment is resolved
with the reference year, the second fragment (when its `%d %B %Y` /
`%d %b %Y` forms fail, i.e. no year is present) defaults to the first
fragment's resolved year, and the returned end is the parsed end date
plus one day (exclusive end). -/
theorem c6_range_year_defaulting (s : String) (today : PDate)
    (p0 p1 : List Char) (tl : List (List Char)) (sd ed : PDate)
    (h1 : searchTime parserSeps (lowerL s.data) = none)
    (h2 : containsSeq "today".data (lowerL s.data) = false)
    (h3 : containsSeq "tomorrow".data (lowerL s.data) = false)
    (h4 : (if containsSeq "arriving".data (lowerL s.data) then firstWeekday (lowerL s.data)
      else none) = none)
    (h5 : hasChar '-' (lowerL s.data) = true)
    (h6 : (splitOnChar '-'
        (stripL (replaceAll (lowerL s.data) "arriving ".data []))).map stripL =
      p0 :: p1 :: tl)
    (h7 : parseStartNoYear p0 today.year = some sd)
    (h8 : parseEndDate p1 sd.year = some ed) :
    parsersParse s today = (some (.d sd), some (.d (nextDay ed))) ∧
    sd.year = today.year ∧
    (strpWithYear monthFullNames p1 = none → strpWithYear monthAbbrNames p1 = none →
      ed.year = sd.year) := by
  refine ⟨?_, parseStartNoYear_year p0 today.year sd h7, ?_⟩
  · rw [parsersParse_eq, h1]
    unfold dateBranches
    rw [h4]
    simp only [h2, h3, h5, Option.isSome_none, Bool.not_false, Bool.false_eq_true,
      if_false, Bool.and_true, if_true]
    unfold rangeBranch
    dsimp only
    rw [h6]
    simp only [h7, h8]
  · intro hy1 hy2
    unfold parseEndDate at h8
    rw [hy1, hy2] at h8
    dsimp only at h8
    split at h8
    · rename_i v hv
      cases h8
      obtain ⟨dm, _, hr⟩ := Option.bind_eq_some.mp hv
      exact replaceYear_year _ _ _ hr
    · obtain ⟨dm, _, hr⟩ := Option.bind_eq_some.mp h8
      exact replaceYear_year _ _ _ hr

/-- Witness for C6: "16 July - 19 July" against reference year 2025
resolves to (July 16 2025, July 19 2025 + one day) = (July 16, July 20). -/
theorem c6_range_year_defaulting_witness :
    parsersParse "16 July - 19 July" ⟨2025, 3, 10⟩ =
      (some (.d ⟨2025, 7, 16⟩), some (.d (nextDay ⟨2025, 7, 19⟩))) :=
  (c6_range_year_defaulting "16 July - 19 July" ⟨2025, 3, 10⟩ "16 july".data "19 july".data
    [] ⟨2025, 7, 16⟩ ⟨2025, 7, 19⟩ (by decide) (by decide) (by decide) (by decide)
    (by decide) (by decide) (by decide) (by decide)).1

/-- C7: in an "arriving" context naming a weekday (and free of the
earlier "today"/"tomorrow" keywords), the parser resolves the start to
`referenceToday + daysAhead` with `1 ≤ daysAhead ≤ 7`, landing exactly on
the named weekday, strictly after the reference date; when the named
weekday equals the reference date's weekday, `daysAhead = 7`, never 0. -/
theorem c7_weekday_resolution (s : String) (today : PDate) (i : Nat)
    (hv : validDateB today = true)
    (h2 : containsSeq "today".data (lowerL s.data) = false)
    (h3 : containsSeq "tomorrow".data (lowerL s.data) = false)
    (h4 : containsSeq "arriving".data (lowerL s.data) = true)
    (h5 : firstWeekday (lowerL s.data) = some i) :
    startDateOf (parsersParse s today) = some (addDays today (daysAheadFor i today)) ∧
    1 ≤ daysAheadFor i today ∧ daysAheadFor i today ≤ 7 ∧
    pyWeekday (addDays today (daysAheadFor i today)) = i ∧
    (i = pyWeekday today → daysAheadFor i today = 7) ∧
    toOrd today < toOrd (addDays today (daysAheadFor i today)) := by
  have hi : i < 7 := by
    have h := weekScan_lt weekdayNames 0 (lowerL s.data) i h5
    simpa [weekdayNames] using h.2
  have hw : pyWeekday today < 7 := Nat.mod_lt _ (by omega)
  have hadd := addDays_spec today hv (daysAheadFor i today)
  have hda : 1 ≤ daysAheadFor i today ∧ daysAheadFor i today ≤ 7 := by
    unfold daysAheadFor
    dsimp only
    split
    · omega
    · rename_i hne
      constructor
      · omega
      · have : (i + 7 - pyWeekday today) % 7 < 7 := Nat.mod_lt _ (by omega)
        omega
  refine ⟨?_, hda.1, hda.2, ?_, ?_, ?_⟩
  · rw [parsersParse_eq]
    unfold dateBranches
    simp only [h2, h3, h4, h5, Bool.false_eq_true, if_false, if_true]
    exact startDateOf_combineOn _ _
  · rw [pyWeekday, hadd.1]
    unfold daysAheadFor
    unfold pyWeekday
    dsimp only
    split
    · omega
    · omega
  · intro heq
    unfold daysAheadFor
    dsimp only
    split
    · rfl
    · rename_i hne
      rw [heq] at hne
      omega
  · rw [hadd.1]
    have := hda.1
    omega

/-- Witness for C7: 2025-03-10 is a Monday and "Arriving Monday" names
index 0 = that same weekday, so the resolution is `+ daysAheadFor 0`,
which the theorem forces to 7 days (never 0). -/
theorem c7_weekday_resolution_witness :
    startDateOf (parsersParse "Arriving Monday" ⟨2025, 3, 10⟩) =
      some (addDays ⟨2025, 3, 10⟩ (daysAheadFor 0 ⟨2025, 3, 10⟩)) :=
  (c7_weekday_resolution "Arriving Monday" ⟨2025, 3, 10⟩ 0 (by decide) (by decide)
    (by decide) (by decide) (by decide)).1

/-- Two emitted orders that both lack an `order_id` key. -/
def c8orderA : PyOrder :=
  { title := some "Parcel A", delivery_date := some "2024-07-15", status := some "Arriving" }

def c8orderB : PyOrder :=
  { title := some "Parcel B", delivery_date := some "2024-07-16" }

/-- C8 counterexample: a document with two emitted events whose UIDs are
both "unknown@ordertracker.local" — identifiers are not unique within
one document when orders lack a natural id. -/
theorem c8_duplicate_uid_counterexample :
    countLine (generateIcsLines [c8orderA, c8orderB] "20250101T000000Z") "BEGIN:VEVENT" = 2 ∧
    emittedUids [c8orderA, c8orderB] "20250101T000000Z" =
      ["unknown@ordertracker.local", "unknown@ordertracker.local"] ∧
    ¬ (emittedUids [c8orderA, c8orderB] "20250101T000000Z").Nodup :=
  ⟨by decide, by decide, by decide⟩

/-- C8 (amended): the UID of an event is the order's `order_id`
(defaulting to "unknown") suffixed with "@ordertracker.local", so UIDs
are pairwise distinct exactly when the emitted orders' id values are;
two id-less orders share the "unknown" UID. -/
theorem c8_uid_distinct_of_ids (orders : List PyOrder) (now : String)
    (h : ((orders.filter (fun o => truthyStr o.delivery_date)).map
      (fun o => o.order_id.getD "unknown")).Nodup) :
    (emittedUids orders now).Nodup := by
  rw [emittedUids_eq]
  have hm : (orders.filter (fun o => truthyStr o.delivery_date)).map uidOf =
      ((orders.filter (fun o => truthyStr o.delivery_date)).map
        (fun o => o.order_id.getD "unknown")).map (fun v => v ++ "@ordertracker.local") := by
    rw [List.map_map]
    rfl
  rw [hm]
  exact h.map (appendSuffixInjective "@ordertracker.local")

def c8orderC : PyOrder := { order_id := some "X1", delivery_date := some "2024-07-15" }

def c8orderD : PyOrder := { order_id := some "X2", delivery_date := some "2024-07-16" }

/-- Witness for the amended C8 on two orders with distinct ids. -/
theorem c8_uid_distinct_of_ids_witness :
    (emittedUids [c8orderC, c8orderD] "20250101T000000Z").Nodup :=
  c8_uid_distinct_of_ids [c8orderC, c8orderD] "20250101T000000Z" (by decide)

/-- A previously written calendar file. -/
def c9prevFile : String := "BEGIN:VCALENDAR\nVERSION:2.0\nEND:VCALENDAR"

def c9order : PyOrder := { title := some "Parcel", delivery_date := some "2025-07-16" }

/-- C9 counterexample: the output is written through
`open(output_file, 'w')`, which truncates the previous file in place; a
fault at the very start of the write raises with the file emptied — the
previous calendar is not left untouched. -/
theorem c9_truncation_counterexample :
    (generateIcsFileRun [c9order] "20250101T000000Z" c9prevFile (some 0)).raised = true ∧
    (generateIcsFileRun [c9order] "20250101T000000Z" c9prevFile (some 0)).fileContent = "" ∧
    (generateIcsFileRun [c9order] "20250101T000000Z" c9prevFile (some 0)).fileContent ≠
      c9prevFile :=
  ⟨by decide, by decide, by decide⟩

/-- C9 (amended): the document is fully built in memory before the file
is opened, but the open truncates the previous content, so after any run
the file holds a prefix of the new document (all of it on success, the
first `k` characters on a fault after `k` characters) — never the old
content. -/
theorem c9_write_truncates (orders : List PyOrder) (now oldContent : String) (k : Nat) :
    (generateIcsFileRun orders now oldContent (some k)).fileContent =
      ⟨(generateIcsText orders now).data.take k⟩ ∧
    (generateIcsFileRun orders now oldContent none).fileContent = generateIcsText orders now := by
  constructor
  · unfold generateIcsFileRun pyWriteTruncating
    dsimp only
    split
    · rfl
    · rename_i hk
      have hlen : (generateIcsText orders now).data.length ≤ k := Nat.le_of_not_lt hk
      dsimp only
      rw [List.take_of_length_le hlen]
  · rfl

/-- C10: the base serializer emits one event record per order with a
present, truthy `delivery_date` and nothing otherwise; IKEA order
dictionaries store the parsed date under `start_date` and never set
`delivery_date`, so a calendar generated from any list of scraped IKEA
orders is the bare header/footer with zero event records. -/
theorem c10_ikea_zero_events :
    (∀ (orders : List PyOrder) (now : String),
      countLine (generateIcsLines orders now) "BEGIN:VEVENT" =
        (orders.filter (fun o => truthyStr o.delivery_date)).length) ∧
    (∀ (items : List IkeaItem) (now : String),
      generateIcsLines (items.map ikeaOrderOf) now = icsHeaderLines ++ ["END:VCALENDAR"] ∧
      countLine (generateIcsLines (items.map ikeaOrderOf) now) "BEGIN:VEVENT" = 0) := by
  refine ⟨countBegin_eq, fun items now => ?_⟩
  have hloop : eventLinesLoop now (items.map ikeaOrderOf) = [] := by
    induction items with
    | nil => rfl
    | cons it rest ih => simpa [eventLinesLoop, ikeaOrderOf] using ih
  have hall : generateIcsLines (items.map ikeaOrderOf) now =
      icsHeaderLines ++ ["END:VCALENDAR"] := by
    unfold generateIcsLines
    rw [hloop]
    simp
  exact ⟨hall, by rw [hall]; decide⟩

